import Mathlib

/-!
Shallow embedding of `src/recommender_base.py` (class `RecommenderBase`):
the identifier registries, the `_preprocess_data` method in its three modes
(fit / update / predict), and the candidate-enumeration stage of `recommend`.

Modelling conventions:
* a pandas `DataFrame` of ratings is a `List (Row U I R)`;
* a Python dict is an insertion-ordered association list `List (K × Nat)`
  (keys are only ever appended fresh, so first-match lookup agrees with dict
  lookup);
* `X.sample(frac=1, replace=False)` is an explicit `shuffle` parameter;
  theorems that need it assume the result is a permutation of the input;
* a raised exception is `Except.error`, carrying the registry state at the
  moment of the raise, so that "no mutation happened before the failure"
  is a provable statement about the embedding;
* pandas `NaN` produced by an unresolvable `.map` lookup is `Option.none`;
  predict-mode `fillna(-1)` turns it into the integer `-1`.
-/

namespace RecSys

/-- Operating mode of `_preprocess_data` (the `type` string argument). -/
inductive Mode where
  | fit
  | update
  | predict
deriving DecidableEq

/-- Exceptions raised by the embedded code. `duplicate` is the
`ValueError("Duplicate user-item ratings in matrix")`; `notFitted` models the
`AttributeError`/`TypeError` from using a `None` registry; `emptyMax` models
the `ValueError` from `max()` over the values of an empty registry. -/
inductive PError where
  | duplicate
  | notFitted
  | emptyMax
deriving DecidableEq

/-- One raw input row: the columns `user_id`, `item_id`, `rating`. -/
structure Row (U I R : Type) where
  user : U
  item : I
  rating : R
deriving DecidableEq

/-- The registry state held on `self`: `user_id_map`, `item_id_map`
(both `None` before any fit), and the `n_users` / `n_items` counts. -/
structure RecState (U I : Type) where
  user_id_map : Option (List (U × Nat))
  item_id_map : Option (List (I × Nat))
  n_users : Option Nat
  n_items : Option Nat
deriving DecidableEq

/-- Dict lookup on an insertion-ordered association list. -/
def dlookup {K : Type} [DecidableEq K] (k : K) : List (K × Nat) → Option Nat
  | [] => none
  | p :: rest => if k = p.1 then some p.2 else dlookup k rest

/-- `X.duplicated(subset=["user_id", "item_id"]).sum() != 0`:
whether some element of the list occurs more than once. -/
def hasDup {K : Type} [DecidableEq K] : List K → Bool
  | [] => false
  | k :: rest => decide (k ∈ rest) || hasDup rest

/-- Helper for `Series.unique()`: `seen` accumulates the values already
emitted, so each distinct value is kept at its first occurrence. -/
def uniqueAux {K : Type} [DecidableEq K] (seen : List K) : List K → List K
  | [] => []
  | k :: rest =>
    if k ∈ seen then uniqueAux seen rest else k :: uniqueAux (k :: seen) rest

/-- `Series.unique()`: the distinct values in order of first occurrence. -/
def uniqueFirst {K : Type} [DecidableEq K] (l : List K) : List K := uniqueAux [] l

/-- The dict comprehension `{id: i for (i, id) in enumerate(column.unique())}`. -/
def buildMap {K : Type} [DecidableEq K] (l : List K) : List (K × Nat) :=
  (uniqueFirst l).enum.map (fun p => (p.2, p.1))

/-- `max(m.values())`; `none` when the dict is empty (Python raises
`ValueError: max() arg is an empty sequence`). -/
def maxVal {K : Type} (m : List (K × Nat)) : Option Nat := (m.map Prod.snd).max?

/-- Predict-mode `fillna(-1)` applied to one remapped id. -/
def fillneg (o : Option Nat) : Int :=
  match o with
  | some n => (n : Int)
  | none => -1

/-- `column.map(mapper)` where the mapper may still be `None` (model never
fitted). pandas applies the mapper elementwise, so with `None` it raises a
`TypeError` at the first element: only a nonempty column fails. -/
def mapSeries {K : Type} [DecidableEq K] (m : Option (List (K × Nat)))
    (xs : List K) : Except PError (List (Option Nat)) :=
  match m with
  | some d => .ok (xs.map (fun x => dlookup x d))
  | none => if xs.isEmpty then .ok [] else .error .notFitted

/-- The update-mode user loop (source lines 86-94): walks the unique users of
the surviving rows, returning the user dict after appending the new users
(each at the next counter value), the known-user list and the new-user list,
both in encounter order. -/
def extendUsers {U : Type} [DecidableEq U] :
    List (U × Nat) → Nat → List U → List (U × Nat) × List U × List U
  | umap, _, [] => (umap, [], [])
  | umap, next, u :: us =>
    if (dlookup u umap).isSome then
      let r := extendUsers umap next us
      (r.1, u :: r.2.1, r.2.2)
    else
      let r := extendUsers (umap ++ [(u, next)]) (next + 1) us
      (r.1, r.2.1, u :: r.2.2)

/-- Mode-dependent result of `_preprocess_data`: the remapped rows and, in
update mode, also the known-user and new-user lists. Fit/update rows keep the
rating and hold `Option Nat` indices (`none` = pandas `NaN`); predict rows are
the two indices after `fillna(-1)`. -/
inductive POut (U I R : Type) where
  | fit (out : List (Option Nat × Option Nat × R)) : POut U I R
  | update (out : List (Option Nat × Option Nat × R)) (known new : List U) : POut U I R
  | predict (out : List (Int × Int)) : POut U I R
deriving DecidableEq

/-- Shallow embedding of `RecommenderBase._preprocess_data` (lines 38-107).
`shuffle` stands for `X.sample(frac=1, replace=False)`. The branches follow
the source line by line: the duplicate check (61) comes before the shuffle
(65) and, in update mode, before the item filter (79); the registry reads
that can hit `None` or an empty dict raise in source order. On success the
returned state holds the (possibly) mutated registries. -/
def preprocess {U I R : Type} [DecidableEq U] [DecidableEq I]
    (mode : Mode) (shuffle : List (Row U I R) → List (Row U I R))
    (s : RecState U I) (rows : List (Row U I R)) :
    Except (PError × RecState U I) (RecState U I × POut U I R) :=
  match mode with
  | .predict =>
    match mapSeries s.user_id_map (rows.map Row.user) with
    | .error e => .error (e, s)
    | .ok us =>
      match mapSeries s.item_id_map (rows.map Row.item) with
      | .error e => .error (e, s)
      | .ok vs =>
        .ok (s, .predict ((us.zip vs).map (fun p => (fillneg p.1, fillneg p.2))))
  | .fit =>
    if hasDup (rows.map (fun r => (r.user, r.item))) then
      .error (.duplicate, s)
    else
      let X := shuffle rows
      let umap := buildMap (X.map Row.user)
      let imap := buildMap (X.map Row.item)
      let s' : RecState U I := ⟨some umap, some imap, some umap.length, some imap.length⟩
      .ok (s', .fit (X.map (fun r => (dlookup r.user umap, dlookup r.item imap, r.rating))))
  | .update =>
    if hasDup (rows.map (fun r => (r.user, r.item))) then
      .error (.duplicate, s)
    else
      let X := shuffle rows
      match s.item_id_map with
      | none => .error (.notFitted, s)
      | some imap =>
        let Y := X.filter (fun r => (dlookup r.item imap).isSome)
        let users := uniqueFirst (Y.map Row.user)
        match s.user_id_map with
        | none => .error (.notFitted, s)
        | some umap =>
          match maxVal umap with
          | none => .error (.emptyMax, s)
          | some m =>
            let r := extendUsers umap (m + 1) users
            let s' : RecState U I := { s with user_id_map := some r.1 }
            .ok (s', .update
              (Y.map (fun q => (dlookup q.user r.1, dlookup q.item imap, q.rating)))
              r.2.1 r.2.2)

/-- Look an external user id up in a state's user registry
(`self.user_id_map.get(u)` on a possibly absent registry). -/
def userIndexOf {U I : Type} [DecidableEq U] (s : RecState U I) (u : U) : Option Nat :=
  match s.user_id_map with
  | none => none
  | some m => dlookup u m

/-- Lines 150-158 of `recommend`: candidate enumeration (all known items,
minus `items_known` when given) and the batch of (user, item) pairs handed to
`predict`. The scoring/sorting/truncation (159-168) only runs after this
stage; when `item_id_map` is still `None` the very first line
(`list(self.item_id_map.keys())`) raises. -/
def recommendCandidates {U I : Type} [DecidableEq I] (s : RecState U I)
    (user : U) (items_known : Option (List I)) : Except PError (List (U × I)) :=
  match s.item_id_map with
  | none => .error .notFitted
  | some imap =>
    let items := imap.map Prod.fst
    let items :=
      match items_known with
      | none => items
      | some ik => items.filter (fun i => decide (i ∉ ik))
    .ok (items.map (fun i => (user, i)))

/-! Helper lemmas about the embedded primitives. -/

theorem dlookup_append_left {K : Type} [DecidableEq K] (k : K) (v : Nat) :
    ∀ (m ext : List (K × Nat)), dlookup k m = some v → dlookup k (m ++ ext) = some v
  | [], _, h => by simp [dlookup] at h
  | p :: rest, ext, h => by
    by_cases hk : k = p.1
    · simpa [dlookup, hk] using h
    · simp only [dlookup, if_neg hk] at h ⊢
      exact dlookup_append_left k v rest ext h

theorem dlookup_append_singleton_ne {K : Type} [DecidableEq K] (k k' : K) (v : Nat)
    (hne : k ≠ k') : ∀ m : List (K × Nat), dlookup k (m ++ [(k', v)]) = dlookup k m
  | [] => by simp [dlookup, hne]
  | p :: rest => by
    by_cases hk : k = p.1
    · simp [dlookup, hk]
    · simp only [List.cons_append, dlookup, if_neg hk]
      exact dlookup_append_singleton_ne k k' v hne rest

theorem mem_uniqueAux {K : Type} [DecidableEq K] (a : K) :
    ∀ (l seen : List K), a ∈ uniqueAux seen l ↔ a ∈ l ∧ a ∉ seen
  | [], seen => by simp [uniqueAux]
  | k :: rest, seen => by
    by_cases hk : k ∈ seen
    · rw [uniqueAux, if_pos hk, mem_uniqueAux a rest seen]
      constructor
      · rintro ⟨h1, h2⟩
        exact ⟨List.mem_cons_of_mem _ h1, h2⟩
      · rintro ⟨h1, h2⟩
        rcases List.mem_cons.mp h1 with h | h
        · exact absurd (h ▸ hk) h2
        · exact ⟨h, h2⟩
    · rw [uniqueAux, if_neg hk]
      rw [List.mem_cons, mem_uniqueAux a rest (k :: seen)]
      constructor
      · rintro (h | ⟨h1, h2⟩)
        · exact ⟨List.mem_cons.mpr (Or.inl h), fun hs => hk (h ▸ hs)⟩
        · exact ⟨List.mem_cons_of_mem _ h1, fun hs => h2 (List.mem_cons_of_mem _ hs)⟩
      · rintro ⟨h1, h2⟩
        rcases List.mem_cons.mp h1 with h | h
        · exact Or.inl h
        · by_cases hak : a = k
          · exact Or.inl hak
          · exact Or.inr ⟨h, fun hs => absurd (List.mem_cons.mp hs) (by
              rintro (h' | h')
              exacts [hak h', h2 h'])⟩

theorem nodup_uniqueAux {K : Type} [DecidableEq K] :
    ∀ (l seen : List K), (uniqueAux seen l).Nodup
  | [], _ => by simp [uniqueAux]
  | k :: rest, seen => by
    by_cases hk : k ∈ seen
    · rw [uniqueAux, if_pos hk]
      exact nodup_uniqueAux rest seen
    · rw [uniqueAux, if_neg hk]
      refine List.Nodup.cons ?_ (nodup_uniqueAux rest (k :: seen))
      intro hmem
      exact ((mem_uniqueAux k rest (k :: seen)).mp hmem).2 (List.mem_cons_self _ _)

theorem mem_uniqueFirst {K : Type} [DecidableEq K] (a : K) (l : List K) :
    a ∈ uniqueFirst l ↔ a ∈ l := by
  rw [uniqueFirst, mem_uniqueAux]
  simp

theorem nodup_uniqueFirst {K : Type} [DecidableEq K] (l : List K) :
    (uniqueFirst l).Nodup := nodup_uniqueAux l []

theorem buildMap_map_fst {K : Type} [DecidableEq K] (l : List K) :
    (buildMap l).map Prod.fst = uniqueFirst l := by
  rw [buildMap, List.map_map]
  exact List.enum_map_snd _

theorem buildMap_map_snd {K : Type} [DecidableEq K] (l : List K) :
    (buildMap l).map Prod.snd = List.range (uniqueFirst l).length := by
  rw [buildMap, List.map_map]
  exact List.enum_map_fst _

theorem buildMap_length {K : Type} [DecidableEq K] (l : List K) :
    (buildMap l).length = (uniqueFirst l).length := by
  rw [buildMap, List.length_map, List.enum_length]

theorem map_zip_map {A B C D : Type} (f : A → B) (g : A → C) (h : B × C → D) :
    ∀ l : List A, ((l.map f).zip (l.map g)).map h = l.map (fun x => h (f x, g x))
  | [] => rfl
  | a :: t => by
    simp only [List.map_cons, List.zip_cons_cons]
    rw [map_zip_map f g h t]

theorem extendUsers_append {U : Type} [DecidableEq U] :
    ∀ (us : List U) (umap : List (U × Nat)) (next : Nat),
      ∃ ext, (extendUsers umap next us).1 = umap ++ ext ∧
        ext.map Prod.fst = (extendUsers umap next us).2.2 ∧
        ext.map Prod.snd = List.range' next (extendUsers umap next us).2.2.length
  | [], umap, next => ⟨[], by simp [extendUsers], by simp [extendUsers], by simp [extendUsers]⟩
  | u :: us, umap, next => by
    by_cases h : (dlookup u umap).isSome
    · obtain ⟨ext, h1, h2, h3⟩ := extendUsers_append us umap next
      exact ⟨ext, by simp [extendUsers, h, h1], by simp [extendUsers, h, h2],
        by simp [extendUsers, h, h3]⟩
    · obtain ⟨ext, h1, h2, h3⟩ := extendUsers_append us (umap ++ [(u, next)]) (next + 1)
      refine ⟨(u, next) :: ext, ?_, ?_, ?_⟩
      · simp only [extendUsers, if_neg h, h1, List.append_assoc, List.singleton_append]
      · simp only [extendUsers, if_neg h, List.map_cons, h2]
      · simp only [extendUsers, if_neg h, List.map_cons, h3, List.length_cons,
          List.range'_succ]

theorem extendUsers_not_mem {U : Type} [DecidableEq U] (u : U) :
    ∀ (us : List U) (umap : List (U × Nat)) (next : Nat), u ∉ us →
      u ∉ (extendUsers umap next us).2.1 ∧ u ∉ (extendUsers umap next us).2.2 ∧
      dlookup u (extendUsers umap next us).1 = dlookup u umap
  | [], umap, next, _ => by simp [extendUsers]
  | v :: us, umap, next, hu => by
    have hne : u ≠ v := fun h => hu (h ▸ List.mem_cons_self _ _)
    have hnot : u ∉ us := fun h => hu (List.mem_cons_of_mem _ h)
    by_cases h : (dlookup v umap).isSome
    · obtain ⟨h1, h2, h3⟩ := extendUsers_not_mem u us umap next hnot
      refine ⟨?_, ?_, ?_⟩
      · simp only [extendUsers, if_pos h, List.mem_cons]
        rintro (h' | h')
        exacts [hne h', h1 h']
      · simpa [extendUsers, h] using h2
      · simpa [extendUsers, h] using h3
    · obtain ⟨h1, h2, h3⟩ := extendUsers_not_mem u us (umap ++ [(v, next)]) (next + 1) hnot
      refine ⟨?_, ?_, ?_⟩
      · simpa [extendUsers, h] using h1
      · simp only [extendUsers, if_neg h, List.mem_cons]
        rintro (h' | h')
        exacts [hne h', h2 h']
      · simp only [extendUsers, if_neg h]
        rw [h3, dlookup_append_singleton_ne u v next hne]

theorem uniqueFirst_perm {K : Type} [DecidableEq K] {l l' : List K} (h : l.Perm l') :
    (uniqueFirst l).Perm (uniqueFirst l') := by
  refine List.Subperm.antisymm ?_ ?_ <;>
    refine List.subperm_of_subset (nodup_uniqueFirst _) ?_
  · intro a ha
    rw [mem_uniqueFirst] at ha ⊢
    exact h.mem_iff.mp ha
  · intro a ha
    rw [mem_uniqueFirst] at ha ⊢
    exact h.mem_iff.mpr ha

/-- Destructuring a successful update-mode preprocessing run: the known-user
and new-user lists and the final state are exactly what the user loop
produces on the unique users of the item-filtered, shuffled rows. -/
theorem update_ok_elim {U I R : Type} [DecidableEq U] [DecidableEq I]
    (shuffle : List (Row U I R) → List (Row U I R)) (s s' : RecState U I)
    (rows : List (Row U I R)) (out : List (Option Nat × Option Nat × R))
    (known newU : List U) (umap : List (U × Nat)) (imap : List (I × Nat))
    (hu : s.user_id_map = some umap) (hi : s.item_id_map = some imap)
    (h : preprocess Mode.update shuffle s rows = .ok (s', POut.update out known newU)) :
    ∃ m, maxVal umap = some m ∧
      known = (extendUsers umap (m + 1) (uniqueFirst (((shuffle rows).filter
        (fun r => (dlookup r.item imap).isSome)).map Row.user))).2.1 ∧
      newU = (extendUsers umap (m + 1) (uniqueFirst (((shuffle rows).filter
        (fun r => (dlookup r.item imap).isSome)).map Row.user))).2.2 ∧
      s' = { s with user_id_map := some (extendUsers umap (m + 1) (uniqueFirst
        (((shuffle rows).filter (fun r => (dlookup r.item imap).isSome)).map Row.user))).1 } := by
  simp only [preprocess, hu, hi] at h
  by_cases hdup : hasDup (rows.map fun r => (r.user, r.item)) = true
  · rw [if_pos hdup] at h
    exact absurd h (by simp)
  · rw [if_neg hdup] at h
    cases hm : maxVal umap with
    | none =>
      rw [hm] at h
      exact absurd h (by simp)
    | some m =>
      rw [hm] at h
      simp only [Except.ok.injEq, Prod.mk.injEq, POut.update.injEq] at h
      obtain ⟨hs, _, hk, hn⟩ := h
      rw [← hi] at hs
      exact ⟨m, rfl, hk.symm, hn.symm, hs.symm⟩

/-- Claim C1 counterexample: an update batch whose only duplicate
(user_id, item_id) pair lies entirely on rows with an unknown item_id still
raises the duplicate error, even though the surviving rows after
item-filtering are duplicate-free. Duplicate detection is therefore not
performed on the surviving rows, contrary to the claim. -/
theorem C1_counterexample :
    preprocess Mode.update (fun l => l)
      (⟨some [(0, 0)], some [(5, 0)], some 1, some 1⟩ : RecState Nat Nat)
      ([⟨1, 9, 3⟩, ⟨1, 9, 4⟩] : List (Row Nat Nat Nat))
      = .error (.duplicate, ⟨some [(0, 0)], some [(5, 0)], some 1, some 1⟩) ∧
    hasDup ((([⟨1, 9, 3⟩, ⟨1, 9, 4⟩] : List (Row Nat Nat Nat)).filter
        (fun r => (dlookup r.item [(5, 0)]).isSome)).map (fun r => (r.user, r.item)))
      = false := by
  exact ⟨rfl, rfl⟩

/-- Claim C1 amended: in update mode the duplicate check runs on the full
input batch, before item-filtering — it fires even when the surviving rows
are duplicate-free — and when it fires the raised error carries the registry
state unchanged: the user registry has not been mutated. -/
theorem C1_update_dup_before_filter {U I R : Type} [DecidableEq U] [DecidableEq I]
    (shuffle : List (Row U I R) → List (Row U I R)) (s : RecState U I)
    (imap : List (I × Nat)) (rows : List (Row U I R))
    (_hi : s.item_id_map = some imap)
    (hdup : hasDup (rows.map (fun r => (r.user, r.item))) = true)
    (_hclean : hasDup ((rows.filter (fun r => (dlookup r.item imap).isSome)).map
        (fun r => (r.user, r.item))) = false) :
    preprocess Mode.update shuffle s rows = .error (.duplicate, s) := by
  simp [preprocess, hdup]

theorem C1_update_dup_before_filter_witness :
    preprocess Mode.update (fun l => l)
      (⟨some [(0, 0)], some [(5, 0)], some 1, some 1⟩ : RecState Nat Nat)
      ([⟨1, 9, 3⟩, ⟨1, 9, 4⟩] : List (Row Nat Nat Nat))
      = .error (.duplicate, ⟨some [(0, 0)], some [(5, 0)], some 1, some 1⟩) :=
  C1_update_dup_before_filter (fun l => l)
    (⟨some [(0, 0)], some [(5, 0)], some 1, some 1⟩ : RecState Nat Nat)
    [(5, 0)] ([⟨1, 9, 3⟩, ⟨1, 9, 4⟩] : List (Row Nat Nat Nat))
    rfl (by decide) (by decide)

/-- Claim C3: a fit or update batch containing a repeated
(user_id, item_id) pair makes `_preprocess_data` raise the duplicate-rating
error, and the state carried by the error is exactly the pre-call state:
both registries are unchanged from before the call. -/
theorem C3_duplicate_atomic {U I R : Type} [DecidableEq U] [DecidableEq I]
    (mode : Mode) (hmode : mode = Mode.fit ∨ mode = Mode.update)
    (shuffle : List (Row U I R) → List (Row U I R))
    (s : RecState U I) (rows : List (Row U I R))
    (hdup : hasDup (rows.map (fun r => (r.user, r.item))) = true) :
    preprocess mode shuffle s rows = .error (.duplicate, s) := by
  rcases hmode with h | h <;> subst h <;> simp [preprocess, hdup]

theorem C3_duplicate_atomic_witness :
    preprocess Mode.fit (fun l => l) (⟨none, none, none, none⟩ : RecState Nat Nat)
      ([⟨0, 0, 0⟩, ⟨0, 0, 1⟩] : List (Row Nat Nat Nat))
      = .error (.duplicate, ⟨none, none, none, none⟩) :=
  C3_duplicate_atomic Mode.fit (Or.inl rfl) (fun l => l)
    (⟨none, none, none, none⟩ : RecState Nat Nat)
    ([⟨0, 0, 0⟩, ⟨0, 0, 1⟩] : List (Row Nat Nat Nat)) (by decide)

/-- Claim C4 counterexample: fitting the two-row input
`[(user 0, item 0), (user 1, item 1)]` under the shuffle outcome that
reverses the rows (a legitimate outcome of `sample(frac=1)`) assigns user 0 —
the first user of the *input* sequence — index 1, not 0: fit indices follow
the shuffled order, not the input's first-occurrence order. -/
theorem C4_counterexample :
    preprocess Mode.fit List.reverse (⟨none, none, none, none⟩ : RecState Nat Nat)
      ([⟨0, 0, 0⟩, ⟨1, 1, 1⟩] : List (Row Nat Nat Nat))
      = .ok (⟨some [(1, 0), (0, 1)], some [(1, 0), (0, 1)], some 2, some 2⟩,
          .fit [(some 0, some 0, 1), (some 1, some 1, 0)]) ∧
    dlookup 0 [(1, 0), (0, 1)] = some 1 ∧
    (List.reverse [⟨0, 0, 0⟩, ⟨1, 1, 1⟩] : List (Row Nat Nat Nat)).Perm
      [⟨0, 0, 0⟩, ⟨1, 1, 1⟩] := by
  refine ⟨rfl, rfl, ?_⟩
  decide

/-- Claim C4 amended: after a successful fit, each registry's keys are
exactly the distinct ids of the input (a permutation of them, each with
exactly one entry), the assigned indices are the dense range 0..k-1, and
keys are ordered by first occurrence in the *shuffled* row order (rather than
the raw input order). -/
theorem C4_fit_registry {U I R : Type} [DecidableEq U] [DecidableEq I]
    (shuffle : List (Row U I R) → List (Row U I R)) (s s' : RecState U I)
    (rows : List (Row U I R)) (o : POut U I R)
    (um : List (U × Nat)) (im : List (I × Nat))
    (hsh : (shuffle rows).Perm rows)
    (h : preprocess Mode.fit shuffle s rows = .ok (s', o))
    (hum : s'.user_id_map = some um) (him : s'.item_id_map = some im) :
    um.map Prod.fst = uniqueFirst ((shuffle rows).map Row.user) ∧
    (um.map Prod.fst).Nodup ∧
    um.map Prod.snd = List.range um.length ∧
    (um.map Prod.fst).Perm (uniqueFirst (rows.map Row.user)) ∧
    im.map Prod.fst = uniqueFirst ((shuffle rows).map Row.item) ∧
    (im.map Prod.fst).Nodup ∧
    im.map Prod.snd = List.range im.length ∧
    (im.map Prod.fst).Perm (uniqueFirst (rows.map Row.item)) := by
  simp only [preprocess] at h
  by_cases hdup : hasDup (rows.map fun r => (r.user, r.item)) = true
  · rw [if_pos hdup] at h
    exact absurd h (by simp)
  · rw [if_neg hdup] at h
    simp only [Except.ok.injEq, Prod.mk.injEq] at h
    obtain ⟨hs, _⟩ := h
    rw [← hs] at hum him
    simp only [] at hum him
    injection hum with hum
    injection him with him
    subst hum him
    refine ⟨buildMap_map_fst _, ?_, ?_, ?_, buildMap_map_fst _, ?_, ?_, ?_⟩
    · rw [buildMap_map_fst]
      exact nodup_uniqueFirst _
    · rw [buildMap_map_snd, buildMap_length]
    · rw [buildMap_map_fst]
      exact uniqueFirst_perm (hsh.map Row.user)
    · rw [buildMap_map_fst]
      exact nodup_uniqueFirst _
    · rw [buildMap_map_snd, buildMap_length]
    · rw [buildMap_map_fst]
      exact uniqueFirst_perm (hsh.map Row.item)

theorem C4_fit_registry_witness :
    ([(0, 0), (1, 1)] : List (Nat × Nat)).map Prod.fst
        = uniqueFirst (([⟨0, 5, 2⟩, ⟨1, 6, 3⟩] : List (Row Nat Nat Nat)).map Row.user) ∧
    (([(0, 0), (1, 1)] : List (Nat × Nat)).map Prod.fst).Nodup ∧
    ([(0, 0), (1, 1)] : List (Nat × Nat)).map Prod.snd
        = List.range ([(0, 0), (1, 1)] : List (Nat × Nat)).length ∧
    (([(0, 0), (1, 1)] : List (Nat × Nat)).map Prod.fst).Perm
        (uniqueFirst (([⟨0, 5, 2⟩, ⟨1, 6, 3⟩] : List (Row Nat Nat Nat)).map Row.user)) ∧
    ([(5, 0), (6, 1)] : List (Nat × Nat)).map Prod.fst
        = uniqueFirst (([⟨0, 5, 2⟩, ⟨1, 6, 3⟩] : List (Row Nat Nat Nat)).map Row.item) ∧
    (([(5, 0), (6, 1)] : List (Nat × Nat)).map Prod.fst).Nodup ∧
    ([(5, 0), (6, 1)] : List (Nat × Nat)).map Prod.snd
        = List.range ([(5, 0), (6, 1)] : List (Nat × Nat)).length ∧
    (([(5, 0), (6, 1)] : List (Nat × Nat)).map Prod.fst).Perm
        (uniqueFirst (([⟨0, 5, 2⟩, ⟨1, 6, 3⟩] : List (Row Nat Nat Nat)).map Row.item)) :=
  C4_fit_registry (fun l => l) (⟨none, none, none, none⟩ : RecState Nat Nat)
    (⟨some [(0, 0), (1, 1)], some [(5, 0), (6, 1)], some 2, some 2⟩ : RecState Nat Nat)
    ([⟨0, 5, 2⟩, ⟨1, 6, 3⟩] : List (Row Nat Nat Nat))
    (.fit [(some 0, some 0, 2), (some 1, some 1, 3)])
    [(0, 0), (1, 1)] [(5, 0), (6, 1)]
    (List.Perm.refl _) rfl rfl rfl

/-- Claim C5: a successful update leaves the item registry untouched and
only ever appends to the user registry: every pre-existing user keeps its
index, and the newly added users receive, in order, the consecutive indices
max(existing indices) + 1, max + 2, ... . -/
theorem C5_update_append_only {U I R : Type} [DecidableEq U] [DecidableEq I]
    (shuffle : List (Row U I R) → List (Row U I R)) (s s' : RecState U I)
    (rows : List (Row U I R)) (out : List (Option Nat × Option Nat × R))
    (known newU : List U) (umap : List (U × Nat)) (imap : List (I × Nat))
    (m : Nat) (u : U) (j : Nat)
    (hu : s.user_id_map = some umap) (hi : s.item_id_map = some imap)
    (hm : maxVal umap = some m)
    (h : preprocess Mode.update shuffle s rows = .ok (s', POut.update out known newU))
    (hj : dlookup u umap = some j) :
    s'.item_id_map = some imap ∧
    s'.user_id_map = some (umap ++ newU.zip (List.range' (m + 1) newU.length)) ∧
    dlookup u (umap ++ newU.zip (List.range' (m + 1) newU.length)) = some j := by
  obtain ⟨m', hm', hk, hn, hs⟩ :=
    update_ok_elim shuffle s s' rows out known newU umap imap hu hi h
  rw [hm] at hm'
  injection hm' with hmm
  subst hmm
  obtain ⟨ext, e1, e2, e3⟩ := extendUsers_append
    (uniqueFirst (((shuffle rows).filter (fun r => (dlookup r.item imap).isSome)).map Row.user))
    umap (m + 1)
  have hext : ext = newU.zip (List.range' (m + 1) newU.length) := by
    refine List.zip_of_prod ?_ ?_
    · rw [e2]
      exact hn.symm
    · rw [e3, ← hn]
  refine ⟨?_, ?_, ?_⟩
  · rw [hs]
    exact hi
  · rw [hs]
    show some (extendUsers umap (m + 1) _).1 = _
    rw [e1, hext]
  · rw [← hext]
    exact dlookup_append_left u j umap ext hj

theorem C5_update_append_only_witness :
    (⟨some [(0, 0), (7, 1)], some [(1, 0)], some 1, some 1⟩ : RecState Nat Nat).item_id_map
      = some [(1, 0)] ∧
    (⟨some [(0, 0), (7, 1)], some [(1, 0)], some 1, some 1⟩ : RecState Nat Nat).user_id_map
      = some ([(0, 0)] ++ ([7] : List Nat).zip (List.range' (0 + 1) ([7] : List Nat).length)) ∧
    dlookup 0 ([(0, 0)] ++ ([7] : List Nat).zip (List.range' (0 + 1) ([7] : List Nat).length))
      = some 0 :=
  C5_update_append_only (fun l => l)
    (⟨some [(0, 0)], some [(1, 0)], some 1, some 1⟩ : RecState Nat Nat)
    (⟨some [(0, 0), (7, 1)], some [(1, 0)], some 1, some 1⟩ : RecState Nat Nat)
    ([⟨7, 1, 5⟩] : List (Row Nat Nat Nat))
    [(some 1, some 0, 5)] [] [7] [(0, 0)] [(1, 0)] 0 0 0
    rfl rfl rfl rfl rfl

/-- Claim C6: in predict mode with both registries present, preprocessing
never fails, its output is the input rows remapped in place, and a row whose
user_id and item_id are unknown to the registries comes out with both ids
mapped to the sentinel -1. -/
theorem C6_predict_sentinel {U I R : Type} [DecidableEq U] [DecidableEq I]
    (shuffle : List (Row U I R) → List (Row U I R)) (s : RecState U I)
    (rows : List (Row U I R)) (um : List (U × Nat)) (im : List (I × Nat))
    (hu : s.user_id_map = some um) (hi : s.item_id_map = some im)
    (k : Nat) (hk : k < rows.length)
    (hunkU : dlookup (rows.get ⟨k, hk⟩).user um = none)
    (hunkI : dlookup (rows.get ⟨k, hk⟩).item im = none) :
    preprocess Mode.predict shuffle s rows
      = .ok (s, POut.predict (rows.map (fun r =>
          (fillneg (dlookup r.user um), fillneg (dlookup r.item im))))) ∧
    (rows.map (fun r => (fillneg (dlookup r.user um), fillneg (dlookup r.item im))))[k]?
      = some (-1, -1) := by
  constructor
  · simp only [preprocess, mapSeries, hu, hi, List.map_map]
    rw [map_zip_map]
    rfl
  · rw [List.getElem?_map, List.getElem?_eq_getElem hk]
    rw [List.get_eq_getElem] at hunkU hunkI
    simp [hunkU, hunkI, fillneg]

theorem C6_predict_sentinel_witness :
    preprocess Mode.predict (fun l => l)
      (⟨some [(0, 0)], some [(1, 0)], some 1, some 1⟩ : RecState Nat Nat)
      ([⟨3, 4, 0⟩] : List (Row Nat Nat Nat))
      = .ok (⟨some [(0, 0)], some [(1, 0)], some 1, some 1⟩,
          POut.predict (([⟨3, 4, 0⟩] : List (Row Nat Nat Nat)).map (fun r =>
            (fillneg (dlookup r.user [(0, 0)]), fillneg (dlookup r.item [(1, 0)]))))) ∧
    (([⟨3, 4, 0⟩] : List (Row Nat Nat Nat)).map (fun r =>
        (fillneg (dlookup r.user [(0, 0)]), fillneg (dlookup r.item [(1, 0)]))))[0]?
      = some (-1, -1) :=
  C6_predict_sentinel (fun l => l)
    (⟨some [(0, 0)], some [(1, 0)], some 1, some 1⟩ : RecState Nat Nat)
    ([⟨3, 4, 0⟩] : List (Row Nat Nat Nat)) [(0, 0)] [(1, 0)]
    rfl rfl 0 (by decide) rfl rfl

/-- Claim C7: predict-mode preprocessing is pure and order-preserving: for
any input rows (duplicates included — there is no duplicate check), it
succeeds, returns the state unchanged (no registry mutation), and its output
has the same length as the input with the k-th output row being exactly the
remap of the k-th input row (no shuffling). -/
theorem C7_predict_pure {U I R : Type} [DecidableEq U] [DecidableEq I]
    (shuffle : List (Row U I R) → List (Row U I R)) (s : RecState U I)
    (rows : List (Row U I R)) (um : List (U × Nat)) (im : List (I × Nat))
    (hu : s.user_id_map = some um) (hi : s.item_id_map = some im)
    (k : Nat) (hk : k < rows.length) :
    preprocess Mode.predict shuffle s rows
      = .ok (s, POut.predict (rows.map (fun r =>
          (fillneg (dlookup r.user um), fillneg (dlookup r.item im))))) ∧
    (rows.map (fun r => (fillneg (dlookup r.user um), fillneg (dlookup r.item im)))).length
      = rows.length ∧
    (rows.map (fun r => (fillneg (dlookup r.user um), fillneg (dlookup r.item im))))[k]?
      = some (fillneg (dlookup (rows.get ⟨k, hk⟩).user um),
          fillneg (dlookup (rows.get ⟨k, hk⟩).item im)) := by
  refine ⟨?_, List.length_map _ _, ?_⟩
  · simp only [preprocess, mapSeries, hu, hi, List.map_map]
    rw [map_zip_map]
    rfl
  · rw [List.getElem?_map, List.getElem?_eq_getElem hk, List.get_eq_getElem]
    rfl

theorem C7_predict_pure_witness :
    preprocess Mode.predict (fun l => l)
      (⟨some [(0, 0)], some [(1, 0)], some 1, some 1⟩ : RecState Nat Nat)
      ([⟨0, 1, 7⟩, ⟨0, 1, 7⟩] : List (Row Nat Nat Nat))
      = .ok (⟨some [(0, 0)], some [(1, 0)], some 1, some 1⟩,
          POut.predict (([⟨0, 1, 7⟩, ⟨0, 1, 7⟩] : List (Row Nat Nat Nat)).map (fun r =>
            (fillneg (dlookup r.user [(0, 0)]), fillneg (dlookup r.item [(1, 0)]))))) ∧
    (([⟨0, 1, 7⟩, ⟨0, 1, 7⟩] : List (Row Nat Nat Nat)).map (fun r =>
        (fillneg (dlookup r.user [(0, 0)]), fillneg (dlookup r.item [(1, 0)])))).length
      = ([⟨0, 1, 7⟩, ⟨0, 1, 7⟩] : List (Row Nat Nat Nat)).length ∧
    (([⟨0, 1, 7⟩, ⟨0, 1, 7⟩] : List (Row Nat Nat Nat)).map (fun r =>
        (fillneg (dlookup r.user [(0, 0)]), fillneg (dlookup r.item [(1, 0)]))))[1]?
      = some (fillneg (dlookup (([⟨0, 1, 7⟩, ⟨0, 1, 7⟩] : List (Row Nat Nat Nat)).get
            ⟨1, by decide⟩).user [(0, 0)]),
          fillneg (dlookup (([⟨0, 1, 7⟩, ⟨0, 1, 7⟩] : List (Row Nat Nat Nat)).get
            ⟨1, by decide⟩).item [(1, 0)])) :=
  C7_predict_pure (fun l => l)
    (⟨some [(0, 0)], some [(1, 0)], some 1, some 1⟩ : RecState Nat Nat)
    ([⟨0, 1, 7⟩, ⟨0, 1, 7⟩] : List (Row Nat Nat Nat)) [(0, 0)] [(1, 0)]
    rfl rfl 1 (by decide)

/-- Claim C8 counterexample: with no registries (fit never called),
predict-mode preprocessing of an *empty* table does not fail: the `None`
mapper is never applied to any element, so the call returns an empty output.
`predict` on an empty table before fit therefore succeeds, contrary to the
claim that it fails. -/
theorem C8_counterexample :
    preprocess Mode.predict (fun l => l) (⟨none, none, none, none⟩ : RecState Nat Nat)
      ([] : List (Row Nat Nat Nat))
      = .ok (⟨none, none, none, none⟩, POut.predict []) := rfl

/-- Claim C8 amended: on a model never fitted (registries absent),
`recommend` always fails, and predict-mode preprocessing fails for every
*nonempty* input table (an empty one yields an empty output without error). -/
theorem C8_not_fitted {U I R : Type} [DecidableEq U] [DecidableEq I]
    (shuffle : List (Row U I R) → List (Row U I R)) (s : RecState U I)
    (hu : s.user_id_map = none) (hi : s.item_id_map = none)
    (rows : List (Row U I R)) (hne : rows ≠ [])
    (user : U) (ik : Option (List I)) :
    preprocess Mode.predict shuffle s rows = .error (.notFitted, s) ∧
    recommendCandidates s user ik = .error .notFitted := by
  constructor
  · have hfalse : (rows.map Row.user).isEmpty = false := by
      cases rows with
      | nil => exact absurd rfl hne
      | cons a t => rfl
    simp [preprocess, mapSeries, hu, hfalse]
  · simp [recommendCandidates, hi]

theorem C8_not_fitted_witness :
    preprocess Mode.predict (fun l => l) (⟨none, none, none, none⟩ : RecState Nat Nat)
      ([⟨0, 0, 0⟩] : List (Row Nat Nat Nat))
      = .error (.notFitted, ⟨none, none, none, none⟩) ∧
    recommendCandidates (⟨none, none, none, none⟩ : RecState Nat Nat) 0 none
      = .error .notFitted :=
  C8_not_fitted (fun l => l) (⟨none, none, none, none⟩ : RecState Nat Nat)
    rfl rfl ([⟨0, 0, 0⟩] : List (Row Nat Nat Nat)) (by simp) 0 none

/-- Claim C9 counterexample: in the model state produced by fitting an empty
table (both registries present but empty), update-mode preprocessing of an
*empty* table raises — `max(self.user_id_map.values())` is taken over an
empty sequence — so an empty input is not accepted by all three modes in
every model state. -/
theorem C9_counterexample :
    preprocess Mode.update (fun l => l)
      (⟨some [], some [], some 0, some 0⟩ : RecState Nat Nat)
      ([] : List (Row Nat Nat Nat))
      = .error (.emptyMax, ⟨some [], some [], some 0, some 0⟩) := rfl

/-- Claim C9 amended: an empty input table is accepted with empty output by
fit (any state; registries reset to empty) and by predict (any state,
registries present or not, left unchanged); update accepts it when both
registries are present and the user registry is nonempty, leaving the state
unchanged (with an empty user registry, `max()` over its values raises). -/
theorem C9_empty_input {U I R : Type} [DecidableEq U] [DecidableEq I]
    (shuffle : List (Row U I R) → List (Row U I R))
    (hsh : shuffle [] = [])
    (t1 t2 s : RecState U I) (umap : List (U × Nat)) (imap : List (I × Nat))
    (hu : s.user_id_map = some umap) (hi : s.item_id_map = some imap)
    (hne : umap ≠ []) :
    preprocess Mode.fit shuffle t1 []
      = .ok (⟨some [], some [], some 0, some 0⟩, POut.fit []) ∧
    preprocess Mode.predict shuffle t2 [] = .ok (t2, POut.predict []) ∧
    preprocess Mode.update shuffle s [] = .ok (s, POut.update [] [] []) := by
  refine ⟨?_, ?_, ?_⟩
  · simp [preprocess, hasDup, hsh, buildMap, uniqueFirst, uniqueAux]
  · simp only [preprocess]
    rcases h1 : t2.user_id_map with _ | d1 <;> rcases h2 : t2.item_id_map with _ | d2 <;>
      simp [mapSeries, h1, h2]
  · cases umap with
    | nil => exact absurd rfl hne
    | cons p rest =>
      obtain ⟨u1, u2, u3, u4⟩ := s
      simp only at hu hi
      subst hu hi
      have hmax : maxVal (p :: rest) = some ((rest.map Prod.snd).foldl max p.2) := rfl
      simp [preprocess, hasDup, hsh, hmax, uniqueFirst, uniqueAux, extendUsers]

theorem C9_empty_input_witness :
    preprocess Mode.fit (fun l => l) (⟨none, none, none, none⟩ : RecState Nat Nat)
      ([] : List (Row Nat Nat Nat))
      = .ok (⟨some [], some [], some 0, some 0⟩, POut.fit []) ∧
    preprocess Mode.predict (fun l => l) (⟨none, none, none, none⟩ : RecState Nat Nat)
      ([] : List (Row Nat Nat Nat))
      = .ok (⟨none, none, none, none⟩, POut.predict []) ∧
    preprocess Mode.update (fun l => l)
      (⟨some [(0, 0)], some [(1, 0)], some 1, some 1⟩ : RecState Nat Nat)
      ([] : List (Row Nat Nat Nat))
      = .ok (⟨some [(0, 0)], some [(1, 0)], some 1, some 1⟩, POut.update [] [] []) :=
  C9_empty_input (fun l => l) rfl
    (⟨none, none, none, none⟩ : RecState Nat Nat)
    (⟨none, none, none, none⟩ : RecState Nat Nat)
    (⟨some [(0, 0)], some [(1, 0)], some 1, some 1⟩ : RecState Nat Nat)
    [(0, 0)] [(1, 0)] rfl rfl (by simp)

/-- Claim C10: in update mode, a user id all of whose rows carry an unknown
item_id (so all are dropped by the item filter) is not reported in the
known-users or new-users lists, and its entry in the user registry (present
or absent) is exactly what it was before the call. -/
theorem C10_dropped_user {U I R : Type} [DecidableEq U] [DecidableEq I]
    (shuffle : List (Row U I R) → List (Row U I R)) (s s' : RecState U I)
    (rows : List (Row U I R)) (out : List (Option Nat × Option Nat × R))
    (known newU : List U) (umap : List (U × Nat)) (imap : List (I × Nat)) (u : U)
    (hu : s.user_id_map = some umap) (hi : s.item_id_map = some imap)
    (hsh : (shuffle rows).Perm rows)
    (honly : ∀ r ∈ rows, r.user = u → dlookup r.item imap = none)
    (h : preprocess Mode.update shuffle s rows = .ok (s', POut.update out known newU)) :
    u ∉ known ∧ u ∉ newU ∧ userIndexOf s' u = userIndexOf s u := by
  obtain ⟨m, _, hk, hn, hs⟩ :=
    update_ok_elim shuffle s s' rows out known newU umap imap hu hi h
  have hu_not : u ∉ uniqueFirst (((shuffle rows).filter
      (fun r => (dlookup r.item imap).isSome)).map Row.user) := by
    intro hmem
    rw [mem_uniqueFirst] at hmem
    obtain ⟨r, hrY, hru⟩ := List.mem_map.mp hmem
    have hrf := List.mem_filter.mp hrY
    have hr_rows : r ∈ rows := hsh.mem_iff.mp hrf.1
    have hnone := honly r hr_rows hru
    rw [hnone] at hrf
    exact absurd hrf.2 (by simp)
  obtain ⟨k1, k2, k3⟩ := extendUsers_not_mem u
    (uniqueFirst (((shuffle rows).filter
      (fun r => (dlookup r.item imap).isSome)).map Row.user)) umap (m + 1) hu_not
  refine ⟨hk ▸ k1, hn ▸ k2, ?_⟩
  rw [hs]
  show dlookup u (extendUsers umap (m + 1) _).1 = userIndexOf s u
  rw [k3, userIndexOf, hu]

theorem C10_dropped_user_witness :
    (3 : Nat) ∉ ([] : List Nat) ∧ (3 : Nat) ∉ ([7] : List Nat) ∧
    userIndexOf (⟨some [(0, 0), (7, 1)], some [(1, 0)], some 1, some 1⟩ : RecState Nat Nat) 3
      = userIndexOf (⟨some [(0, 0)], some [(1, 0)], some 1, some 1⟩ : RecState Nat Nat) 3 :=
  C10_dropped_user (fun l => l)
    (⟨some [(0, 0)], some [(1, 0)], some 1, some 1⟩ : RecState Nat Nat)
    (⟨some [(0, 0), (7, 1)], some [(1, 0)], some 1, some 1⟩ : RecState Nat Nat)
    ([⟨7, 1, 5⟩, ⟨3, 9, 2⟩] : List (Row Nat Nat Nat))
    [(some 1, some 0, 5)] [] [7] [(0, 0)] [(1, 0)] 3
    rfl rfl (List.Perm.refl _) (by decide) rfl

end RecSys
